import Mathlib

/-!
Verification of the discovery-and-merge pipeline of `vatican_scraper.py`.

The development shallowly embeds the Python source: each Python function of
the scraper (`document_exists`, `add_or_update_document`, `load_existing_data`,
`save_data`, `extract_document_info`'s heuristics, the link filter of
`find_pope_leo_pages`, and the orchestration loop of `scrape_all_documents`)
is translated to an executable Lean definition, and the claimed properties
are settled as theorems about those definitions.

Python dictionaries that always carry the same keys (the documents created by
`add_or_update_document`) become Lean structures; the one genuinely optional
key (`"urls"`, created lazily on the first URL merge) becomes an `Option`.
Python string truthiness (`if s:`) is translated as `s ≠ ""`.
-/

/-- One catalog entry, the dictionary built by `add_or_update_document`
(lines 101-113 of the source).  The `"urls"` key is absent on a freshly
created document and is materialised only by the URL-merge branch
(lines 78-82), hence `Option`.  `added_date` holds the `datetime.now()`
string taken at creation time. -/
structure Doc where
  title : String
  url : String
  urls : Option (List String)
  type : String
  date : String
  language : String
  languages : List String
  description : String
  read : Bool
  comments : String
  quotes : List String
  added_date : String
deriving DecidableEq

/-- The candidate record produced by `extract_document_info` (lines 250-257):
the dictionary `{'title', 'url', 'type', 'date', 'language', 'description'}`. -/
structure Record where
  title : String
  url : String
  type : String
  date : String
  language : String
  description : String
deriving DecidableEq

/-- The match predicate of `document_exists` (line 68):
`doc["title"] == title or doc["url"] == url`. -/
def doc_matches (d : Doc) (title url : String) : Bool :=
  d.title == title || d.url == url

/-- The scan `document_exists` (lines 65-70): linear scan returning the first document
whose title equals `title` or whose (primary) `url` equals `url`;
the `urls` list is not consulted. -/
def document_exists (docs : List Doc) (title url : String) : Option Doc :=
  docs.find? (fun d => doc_matches d title url)

/-- Lines 77-83: `if url not in existing.get("urls", [existing["url"]])`,
materialise the `"urls"` list from the current primary url if the key is
absent, append the candidate url and promote it to the primary `url`. -/
def merge_url (existing : Doc) (url : String) : Doc :=
  if url ∉ existing.urls.getD [existing.url] then
    { existing with urls := some (existing.urls.getD [existing.url] ++ [url]), url := url }
  else existing

/-- Line 86-87: `if doc_type and not existing.get("type")`. -/
def merge_type (existing : Doc) (doc_type : String) : Doc :=
  if doc_type ≠ "" ∧ existing.type = "" then { existing with type := doc_type }
  else existing

/-- Line 88-89: `if date and not existing.get("date")`. -/
def merge_date (existing : Doc) (date : String) : Doc :=
  if date ≠ "" ∧ existing.date = "" then { existing with date := date }
  else existing

/-- Lines 90-94: `if language and language not in existing.get("languages", [])`
(every pipeline-created document carries the `"languages"` key, so the branch
creating it is the plain append). -/
def merge_language (existing : Doc) (language : String) : Doc :=
  if language ≠ "" ∧ language ∉ existing.languages then
    { existing with languages := existing.languages ++ [language] }
  else existing

/-- Lines 95-96: `if description and not existing.get("description")`. -/
def merge_description (existing : Doc) (description : String) : Doc :=
  if description ≠ "" ∧ existing.description = "" then
    { existing with description := description }
  else existing

/-- The update branch of `add_or_update_document` (lines 76-98), applied to
the matched document: the five per-field merge steps in source order. -/
def update_existing (existing : Doc) (url doc_type date language description : String) :
    Doc :=
  merge_description
    (merge_language (merge_date (merge_type (merge_url existing url) doc_type) date) language)
    description

/-- The creation branch of `add_or_update_document` (lines 100-117): the new
document dictionary.  `now` is the `datetime.now().isoformat()` string. -/
def new_document (title url doc_type date language description now : String) : Doc :=
  { title := title
    url := url
    urls := none
    type := doc_type
    date := date
    language := language
    languages := if language ≠ "" then [language] else []
    description := description
    read := false
    comments := ""
    quotes := []
    added_date := now }

/-- The upsert `add_or_update_document` (lines 72-117): mutate the first document
matched by `document_exists` in place, or append a freshly created one.
The in-place mutation of the Python reference is rendered as replacing the
first matching element of the list. -/
def add_or_update_document (docs : List Doc)
    (title url doc_type date language description now : String) : List Doc :=
  match docs with
  | [] => [new_document title url doc_type date language description now]
  | d :: rest =>
    if doc_matches d title url then
      update_existing d url doc_type date language description :: rest
    else
      d :: add_or_update_document rest title url doc_type date language description now

/-- A call `add_or_update_document(**r)` with the intended keyword binding
(the record's `'type'` entry feeding the `doc_type` parameter). -/
def upsert (docs : List Doc) (r : Record) (now : String) : List Doc :=
  add_or_update_document docs r.title r.url r.type r.date r.language r.description now

/-- A sequence of direct `add_or_update_document` calls, each paired with the
`datetime.now()` string current at that call. -/
def run_calls (docs : List Doc) (calls : List (Record × String)) : List Doc :=
  calls.foldl (fun ds c => upsert ds c.1 c.2) docs

/-- The user-owned fields of a document: `read`, `comments`, `quotes`. -/
def userFields (d : Doc) : Bool × String × List String :=
  (d.read, d.comments, d.quotes)

/-- Concrete instance of C1: a user-annotated document keeps
`read = true`, `comments = "x"`, `quotes = ["q"]` across a metadata merge. -/
def c1_doc : Doc :=
  { title := "Rerum Novarum", url := "U1", urls := none, type := "Encyclical",
    date := "", language := "Latin", languages := ["Latin"], description := "",
    read := true, comments := "x", quotes := ["q"], added_date := "d0" }

/-- The identity-bearing state of a document: primary `url` and the optional
`urls` list.  Only `merge_url` changes it. -/
def urlState (d : Doc) : String × Option (List String) := (d.url, d.urls)

def c3_calls : List (Record × String) :=
  [({ title := "T1", url := "U1", type := "", date := "", language := "",
      description := "" }, "t1"),
   ({ title := "T2", url := "U2", type := "", date := "", language := "",
      description := "" }, "t2"),
   ({ title := "T1", url := "U2", type := "", date := "", language := "",
      description := "" }, "t3")]

def c4_doc : Doc :=
  { title := "T1", url := "U1", urls := none, type := "", date := "",
    language := "", languages := [], description := "", read := false,
    comments := "", quotes := [], added_date := "t1" }

def c4_calls : List (Record × String) :=
  [({ title := "T1", url := "U1", type := "", date := "", language := "",
      description := "" }, "t1"),
   ({ title := "T1", url := "U2", type := "", date := "", language := "",
      description := "" }, "t2")]

def urls_inv (d : Doc) : Prop := ∀ us, d.urls = some us → d.url ∈ us

def c5_calls : List (Record × String) :=
  [({ title := "T5", url := "V1", type := "", date := "", language := "",
      description := "" }, "t1"),
   ({ title := "T5", url := "V2", type := "", date := "", language := "",
      description := "" }, "t2")]

def c5_merged_doc : Doc :=
  { title := "T5", url := "V2", urls := some ["V1", "V2"], type := "", date := "",
    language := "", languages := [], description := "", read := false,
    comments := "", quotes := [], added_date := "t1" }

/-- The claimed per-document property of C5 as a boolean check:
the `urls` list exists and holds the primary url. -/
def alt_urls_ok (d : Doc) : Bool :=
  match d.urls with
  | some us => us.contains d.url
  | none => false

def c5_new_call : List (Record × String) :=
  [({ title := "T6", url := "W1", type := "", date := "", language := "",
      description := "" }, "t1")]

/-- Python `str.strip()` on the character list: drop leading and trailing
whitespace. -/
def stripChars (l : List Char) : List Char :=
  ((l.dropWhile Char.isWhitespace).reverse.dropWhile Char.isWhitespace).reverse

/-- Python `str.strip()`. -/
def py_strip (s : String) : String := String.mk (stripChars s.data)

/-- Python `s[:n]`: the first `n` characters of `s`. -/
def py_take (s : String) (n : Nat) : String := String.mk (s.data.take n)

/-- The description heuristic of `extract_document_info` (lines 242-248):
`first_p` is `soup.select_one('p')`'s text (`none` when the page has no
paragraph).  Strip it; if longer than 50 characters store it, truncated to
the first 200 characters plus `"..."` when longer than 200; else store
nothing. -/
def extract_description (first_p : Option String) : String :=
  match first_p with
  | none => ""
  | some t =>
    let desc_text := py_strip t
    if desc_text.length > 50 then
      if desc_text.length > 200 then py_take desc_text 200 ++ "..." else desc_text
    else ""

def c7_long_paragraph : String := String.mk (List.replicate 250 'a')

/-- A Python value as decoded by `json.load`. -/
inductive PyJson
  | null
  | bool (b : Bool)
  | num (n : Int)
  | str (s : String)
  | arr (elems : List PyJson)
  | obj (entries : List (String × PyJson))

/-- The Python exceptions the persistence layer can raise. -/
inductive PyErr
  | keyError
  | typeError
  | attributeError
deriving DecidableEq

/-- The state of the durable catalog file (`self.data_file`): absent, present
with content that `json.load` rejects (`json.JSONDecodeError`), or present
with decodable content `v`. -/
inductive FileState
  | absent
  | invalidJson
  | validJson (v : PyJson)

/-- Python `len()`: defined on strings, lists and dicts, `TypeError`
otherwise. -/
def pyLen : PyJson → Except PyErr Nat
  | .str s => .ok s.length
  | .arr elems => .ok elems.length
  | .obj entries => .ok entries.length
  | _ => .error .typeError

/-- Lookup in a Python dict (first — and only — binding of the key). -/
def dictFind : List (String × PyJson) → String → Option PyJson
  | [], _ => none
  | kv :: rest, k => if kv.1 = k then some kv.2 else dictFind rest k

/-- Python `dict.get(k, dflt)`. -/
def dictGetD (entries : List (String × PyJson)) (k : String) (dflt : PyJson) : PyJson :=
  (dictFind entries k).getD dflt

/-- Python `d[k] = v`: replace in place, or append preserving insertion
order. -/
def dictSet (entries : List (String × PyJson)) (k : String) (v : PyJson) :
    List (String × PyJson) :=
  if (dictFind entries k).isSome then
    entries.map (fun kv => if kv.1 = k then (k, v) else kv)
  else entries ++ [(k, v)]

/-- The fresh-data dictionary of `load_existing_data` (lines 45-53). -/
def default_data : PyJson :=
  .obj [("metadata",
          .obj [("last_updated", .null), ("pope", .str "Leo XIII"),
                ("source", .str "vatican.va"), ("total_documents", .num 0)]),
        ("documents", .arr [])]

/-- The loader `load_existing_data` (lines 33-53).  An absent file and a file whose
content `json.load` rejects both yield the fresh default (the
`except (json.JSONDecodeError, FileNotFoundError)` handler).  A decodable
file is returned as loaded; the status line first evaluates
`len(data.get('documents', []))`, which raises `AttributeError` when the
decoded value is not a dict and `TypeError` when the `documents` value has
no length — neither is caught. -/
def load_existing_data : FileState → Except PyErr PyJson
  | .absent => .ok default_data
  | .invalidJson => .ok default_data
  | .validJson v =>
    match v with
    | .obj entries =>
      match pyLen (dictGetD entries "documents" (.arr [])) with
      | .ok _ => .ok (.obj entries)
      | .error e => .error e
    | _ => .error .attributeError

/-- The writer `save_data` (lines 55-63): set `metadata.last_updated` to the current
time and `metadata.total_documents` to `len(documents)`, then write the
file (the write itself always succeeds).  Raises `KeyError`/`TypeError`
when the loaded data lacks the expected shape. -/
def save_data (data : PyJson) (now : String) : Except PyErr PyJson :=
  match data with
  | .obj entries =>
    match dictFind entries "metadata" with
    | none => .error .keyError
    | some (.obj mentries) =>
      let mentries := dictSet mentries "last_updated" (.str now)
      match dictFind entries "documents" with
      | none => .error .keyError
      | some docsv =>
        match pyLen docsv with
        | .error e => .error e
        | .ok n =>
          .ok (.obj (dictSet entries "metadata"
            (.obj (dictSet mentries "total_documents" (.num n)))))
    | some _ => .error .typeError
  | _ => .error .typeError

/-- The catalog `metadata` dictionary in its steady-state shape. -/
structure Metadata where
  last_updated : Option String
  pope : String
  source : String
  total_documents : Nat
deriving DecidableEq

/-- The in-memory catalog `self.documents` in its steady-state shape. -/
structure Catalog where
  metadata : Metadata
  documents : List Doc
deriving DecidableEq

/-- The fresh catalog of `load_existing_data` (lines 45-53), as a `Catalog`
(the structured view of `default_data`). -/
def default_catalog : Catalog :=
  { metadata := { last_updated := none, pope := "Leo XIII", source := "vatican.va",
                  total_documents := 0 },
    documents := [] }

/-- The effect of `save_data` (lines 55-63) at the catalog level: its effect on the
in-memory catalog when saving at time `now` (the file write changes no
in-memory state). -/
def save_data_catalog (c : Catalog) (now : String) : Catalog :=
  { c with
    metadata := { c.metadata with
      last_updated := some now
      total_documents := c.documents.length } }

/-- The keyword dictionary built from the record returned by
`extract_document_info` (lines 250-257), exactly as passed to
`add_or_update_document(**doc_info)` on lines 278 and 281.  Note the third
keyword is named `"type"`. -/
def record_kwargs (r : Record) : List (String × String) :=
  [("title", r.title), ("url", r.url), ("type", r.type), ("date", r.date),
   ("language", r.language), ("description", r.description)]

/-- The parameter names of `add_or_update_document` (line 72).  The third
parameter is named `"doc_type"`, not `"type"`. -/
def add_or_update_params : List String :=
  ["title", "url", "doc_type", "date", "language", "description"]

def kwFind (kwargs : List (String × String)) (k : String) : Option String :=
  (kwargs.find? (fun kv => kv.1 == k)).map (fun kv => kv.2)

/-- A Python keyword call `add_or_update_document(**kwargs)`: every keyword
must name a parameter and the parameters without defaults (`title`, `url`)
must be bound, otherwise the call raises `TypeError` before the body runs. -/
def call_add_or_update_document (docs : List Doc) (kwargs : List (String × String))
    (now : String) : Except PyErr (List Doc) :=
  if kwargs.all (fun kv => add_or_update_params.contains kv.1) then
    match kwFind kwargs "title", kwFind kwargs "url" with
    | some title, some url =>
      .ok (add_or_update_document docs title url
        ((kwFind kwargs "doc_type").getD "") ((kwFind kwargs "date").getD "")
        ((kwFind kwargs "language").getD "") ((kwFind kwargs "description").getD "")
        now)
    | _, _ => .error .typeError
  else .error .typeError

/-- The `processed`-counter and periodic-save bookkeeping of one loop
iteration (lines 284-288): increment `processed`; a mid-run save fires when
`processed % 10 == 0`. -/
def step_counters (processed saves : Nat) : Nat × Nat :=
  (processed + 1, if (processed + 1) % 10 = 0 then saves + 1 else saves)

/-- The candidate loop of `scrape_all_documents` (lines 271-288), as
written.  Each element of `fetched` is the outcome of
`extract_document_info` for one candidate URL (`none` when the fetch
failed and the extractor returned nothing).  A successful extraction is
handed to `add_or_update_document(**doc_info)`; `clock k` stands for the
`datetime.now()` string when the counter reads `k`.  The loop state is
(documents, processed, mid-run saves); an uncaught exception aborts the
loop (and therefore the run) before the counter update. -/
def scrape_loop (clock : Nat → String) :
    List (Option Record) → List Doc × Nat × Nat → Except PyErr (List Doc × Nat × Nat)
  | [], st => .ok st
  | o :: rest, (docs, processed, saves) =>
    match o with
    | some r =>
      match call_add_or_update_document docs (record_kwargs r) (clock processed) with
      | .error e => .error e
      | .ok docs' =>
        scrape_loop clock rest
          (docs', (step_counters processed saves).1, (step_counters processed saves).2)
    | none =>
      scrape_loop clock rest
        (docs, (step_counters processed saves).1, (step_counters processed saves).2)

/-- The orchestrator `scrape_all_documents` (lines 259-297), as written: run the candidate
loop from the current catalog, then perform the final unconditional save at
time `t`.  Returns the catalog plus (mid-run saves, total saves).  Mid-run
saves rewrite only the two metadata fields that the final save overwrites,
so carrying them through the loop state is not needed for the final
catalog; an uncaught error aborts the run before the final save. -/
def scrape_all_documents (c : Catalog) (fetched : List (Option Record))
    (clock : Nat → String) (t : String) : Except PyErr (Catalog × Nat × Nat) :=
  match scrape_loop clock fetched (c.documents, 0, 0) with
  | .error e => .error e
  | .ok (docs, _, mid) =>
    .ok (save_data_catalog { c with documents := docs } t, mid, mid + 1)

/-- The candidate loop with the intended keyword binding — the record's
`"type"` entry feeding the `doc_type` parameter, i.e. a plain `upsert` —
used to assess the merge-level pipeline claims beyond the keyword slip
documented at C9. -/
def scrape_loop_intended (clock : Nat → String) :
    List (Option Record) → List Doc × Nat × Nat → List Doc × Nat × Nat
  | [], st => st
  | o :: rest, (docs, processed, saves) =>
    let docs' :=
      match o with
      | some r => upsert docs r (clock processed)
      | none => docs
    scrape_loop_intended clock rest
      (docs', (step_counters processed saves).1, (step_counters processed saves).2)

/-- The orchestrator with the intended keyword binding. -/
def scrape_all_documents_intended (c : Catalog) (fetched : List (Option Record))
    (clock : Nat → String) (t : String) : Catalog × Nat × Nat :=
  let st := scrape_loop_intended clock fetched (c.documents, 0, 0)
  (save_data_catalog { c with documents := st.1 } t, st.2.2, st.2.2 + 1)

/-- A document is in the "freshly created from record `r`" state: the field
values `new_document` gives it, for any creation time. -/
def fresh_for (r : Record) (d : Doc) : Prop :=
  d.title = r.title ∧ d.url = r.url ∧ d.urls = none ∧ d.type = r.type ∧
  d.date = r.date ∧ d.language = r.language ∧
  d.languages = (if r.language ≠ "" then [r.language] else []) ∧
  d.description = r.description

def c6_ok_fetched : List (Option Record) :=
  [some { title := "A", url := "UA", type := "Encyclical", date := "", language := "Latin",
          description := "" },
   none,
   some { title := "B", url := "UB", type := "Letter", date := "", language := "English",
          description := "" }]

def c6_alias_fetched : List (Option Record) :=
  [some { title := "T1", url := "U1", type := "", date := "", language := "",
          description := "" },
   some { title := "T2", url := "U2", type := "Letter", date := "", language := "",
          description := "" },
   some { title := "T1", url := "U2", type := "", date := "", language := "",
          description := "" }]

/-- Drop `pre` from the front of `l`, or `none` if `pre` is not a prefix. -/
def dropPrefixChars : List Char → List Char → Option (List Char)
  | [], l => some l
  | _ :: _, [] => none
  | p :: ps, c :: cs => if c = p then dropPrefixChars ps cs else none

/-- Fuel-driven worker for Python `str.split(sep)` with a non-empty
separator (the fuel, initialised to the input length, only forces
termination and is never exhausted first). -/
def splitFuel (sep : List Char) : Nat → List Char → List Char → List (List Char)
  | 0, l, acc => [acc.reverse ++ l]
  | _ + 1, [], acc => [acc.reverse]
  | fuel + 1, c :: cs, acc =>
    match dropPrefixChars sep (c :: cs) with
    | some rest => acc.reverse :: splitFuel sep fuel rest []
    | none => splitFuel sep fuel cs (c :: acc)

/-- Python `s.split(sep)` for a non-empty separator. -/
def py_split (s sep : String) : List String :=
  (splitFuel sep.data s.data.length s.data []).map String.mk

/-- Fuel-driven worker for Python `str.replace(old, new)` with non-empty
`old`: replace left to right, non-overlapping. -/
def replaceFuel (old new : List Char) : Nat → List Char → List Char
  | 0, l => l
  | _ + 1, [] => []
  | fuel + 1, c :: cs =>
    match dropPrefixChars old (c :: cs) with
    | some rest => new ++ replaceFuel old new fuel rest
    | none => c :: replaceFuel old new fuel cs

/-- Python `s.replace(old, new)` for non-empty `old`. -/
def py_replace (s old new : String) : String :=
  String.mk (replaceFuel old.data new.data s.data.length s.data)

/-- Substring occurrence test at any position. -/
def containsSub (pat : List Char) : List Char → Bool
  | [] => pat.isEmpty
  | c :: cs => pat.isPrefixOf (c :: cs) || containsSub pat cs

/-- Python `pat in s` on strings. -/
def str_contains (s pat : String) : Bool := containsSub pat.data s.data

/-- Python `s.endswith(t)`. -/
def ends_with (s t : String) : Bool := t.data.isSuffixOf s.data

/-- The candidate filter of `find_pope_leo_pages` (lines 170-173): the link
target must sit under the leo-xiii path segment, end in `.html`, not be an
index page, and not be the seed page it was found on. -/
def link_filter (full_url url : String) : Bool :=
  (str_contains full_url "/leo-xiii/" || str_contains full_url "/leo_xiii/") &&
    ends_with full_url ".html" &&
    !str_contains full_url "/index.html" &&
    full_url != url

/-- Worker for Python `str.title()`: the flag records whether the previous
character was a letter; a letter after a non-letter is uppercased, any
other letter lowercased. -/
def py_title_chars : List Char → Bool → List Char
  | [], _ => []
  | c :: rest, prevAlpha =>
    (if c.isAlpha then (if prevAlpha then c.toLower else c.toUpper) else c)
      :: py_title_chars rest c.isAlpha

/-- Python `str.title()`. -/
def py_title (s : String) : String := String.mk (py_title_chars s.data false)

/-- The `path` component of `urllib.parse.urlparse`, modelled for the
absolute URLs this scraper handles: strip the fragment (first `"#"`) and
the query (first `"?"`), then drop the scheme and the authority; a URL
without a scheme separator is all path. -/
def urlparse_path (url : String) : String :=
  let noFrag := (py_split url "#").headD url
  let noQuery := (py_split noFrag "?").headD noFrag
  match py_split noQuery "://" with
  | _scheme :: r1 :: rs =>
    match py_split (String.intercalate "://" (r1 :: rs)) "/" with
    | [] => ""
    | [_host] => ""
    | _host :: segs => "/" ++ String.intercalate "/" segs
  | _ => noQuery

/-- The fallback title derivation of `extract_document_info` (line 198):
final path segment of the URL, every `".html"` occurrence removed, hyphens
to spaces, title-cased. -/
def fallback_title (url : String) : String :=
  py_title (py_replace (py_replace
    (((py_split (urlparse_path url) "/").getLast?).getD "") ".html" "") "-" " ")

/-- The selector chain (lines 185-195): `sel` lists, in selector order, the
text of the element each selector finds (`none` when the selector matches
nothing).  The first whose stripped text is non-empty wins. -/
def pick_title : List (Option String) → String
  | [] => ""
  | none :: rest => pick_title rest
  | some s :: rest => if py_strip s ≠ "" then py_strip s else pick_title rest

/-- The whitespace normalisation of line 201: every maximal whitespace run
becomes a single space. -/
def collapse : List Char → List Char
  | [] => []
  | c :: rest =>
    if c.isWhitespace then
      if (collapse rest).head? = some ' ' then collapse rest else ' ' :: collapse rest
    else c :: collapse rest

/-- Adjacent characters that do not form a whitespace run. -/
def no_ws_pair (a b : Char) : Prop := ¬(a.isWhitespace ∧ b.isWhitespace)

/-- Title extraction of `extract_document_info` (lines 184-201): selector
chain, URL-derived fallback when every selector came up empty, then
whitespace-run collapse and strip. -/
def extract_title (sel : List (Option String)) (url : String) : String :=
  let title := pick_title sel
  let title := if title = "" then fallback_title url else title
  py_strip (String.mk (collapse title.data))

def c10_good_url : String :=
  "https://www.vatican.va/content/leo-xiii/en/encyclicals/documents/rerum-novarum.html"

def c10_bad_url : String := "https://www.vatican.va/content/leo-xiii/.html"

def c10_all_selectors_empty : List (Option String) :=
  [none, none, none, none, none, none, none, none]

def c9_record : Record :=
  { title := "Rerum Novarum", url := "https://www.vatican.va/R.html",
    type := "Encyclical", date := "15 May 1891", language := "Latin",
    description := "" }

theorem userFields_merge_url (d : Doc) (url : String) :
    userFields (merge_url d url) = userFields d := by
  unfold merge_url userFields; split <;> rfl

theorem userFields_merge_type (d : Doc) (s : String) :
    userFields (merge_type d s) = userFields d := by
  unfold merge_type userFields; split <;> rfl

theorem userFields_merge_date (d : Doc) (s : String) :
    userFields (merge_date d s) = userFields d := by
  unfold merge_date userFields; split <;> rfl

theorem userFields_merge_language (d : Doc) (s : String) :
    userFields (merge_language d s) = userFields d := by
  unfold merge_language userFields; split <;> rfl

theorem userFields_merge_description (d : Doc) (s : String) :
    userFields (merge_description d s) = userFields d := by
  unfold merge_description userFields; split <;> rfl

theorem userFields_update_existing (d : Doc) (url doc_type date language description : String) :
    userFields (update_existing d url doc_type date language description) = userFields d := by
  unfold update_existing
  rw [userFields_merge_description, userFields_merge_language, userFields_merge_date,
    userFields_merge_type, userFields_merge_url]

theorem title_merge_url (d : Doc) (url : String) : (merge_url d url).title = d.title := by
  unfold merge_url; split <;> rfl

theorem title_merge_type (d : Doc) (s : String) : (merge_type d s).title = d.title := by
  unfold merge_type; split <;> rfl

theorem title_merge_date (d : Doc) (s : String) : (merge_date d s).title = d.title := by
  unfold merge_date; split <;> rfl

theorem title_merge_language (d : Doc) (s : String) :
    (merge_language d s).title = d.title := by
  unfold merge_language; split <;> rfl

theorem title_merge_description (d : Doc) (s : String) :
    (merge_description d s).title = d.title := by
  unfold merge_description; split <;> rfl

theorem title_update_existing (d : Doc) (url doc_type date language description : String) :
    (update_existing d url doc_type date language description).title = d.title := by
  unfold update_existing
  rw [title_merge_description, title_merge_language, title_merge_date,
    title_merge_type, title_merge_url]

theorem type_merge_url (d : Doc) (url : String) : (merge_url d url).type = d.type := by
  unfold merge_url; split <;> rfl

theorem type_merge_date (d : Doc) (s : String) : (merge_date d s).type = d.type := by
  unfold merge_date; split <;> rfl

theorem type_merge_language (d : Doc) (s : String) :
    (merge_language d s).type = d.type := by
  unfold merge_language; split <;> rfl

theorem type_merge_description (d : Doc) (s : String) :
    (merge_description d s).type = d.type := by
  unfold merge_description; split <;> rfl

theorem type_merge_type_of_ne (d : Doc) (s : String) (hne : d.type ≠ "") :
    (merge_type d s).type = d.type := by
  unfold merge_type
  split
  · rename_i h; exact absurd h.2 hne
  · rfl

/-- First writer wins for `type`: once non-empty it survives any update. -/
theorem type_update_existing_of_ne (d : Doc)
    (url doc_type date language description : String) (hne : d.type ≠ "") :
    (update_existing d url doc_type date language description).type = d.type := by
  unfold update_existing
  rw [type_merge_description, type_merge_language, type_merge_date,
    type_merge_type_of_ne _ _ (by rw [type_merge_url]; exact hne), type_merge_url]

theorem date_merge_url (d : Doc) (url : String) : (merge_url d url).date = d.date := by
  unfold merge_url; split <;> rfl

theorem date_merge_type (d : Doc) (s : String) : (merge_type d s).date = d.date := by
  unfold merge_type; split <;> rfl

theorem date_merge_language (d : Doc) (s : String) :
    (merge_language d s).date = d.date := by
  unfold merge_language; split <;> rfl

theorem date_merge_description (d : Doc) (s : String) :
    (merge_description d s).date = d.date := by
  unfold merge_description; split <;> rfl

theorem date_merge_date_of_ne (d : Doc) (s : String) (hne : d.date ≠ "") :
    (merge_date d s).date = d.date := by
  unfold merge_date
  split
  · rename_i h; exact absurd h.2 hne
  · rfl

/-- First writer wins for `date`. -/
theorem date_update_existing_of_ne (d : Doc)
    (url doc_type date language description : String) (hne : d.date ≠ "") :
    (update_existing d url doc_type date language description).date = d.date := by
  unfold update_existing
  rw [date_merge_description, date_merge_language,
    date_merge_date_of_ne _ _ (by rw [date_merge_type, date_merge_url]; exact hne),
    date_merge_type, date_merge_url]

theorem description_merge_url (d : Doc) (url : String) :
    (merge_url d url).description = d.description := by
  unfold merge_url; split <;> rfl

theorem description_merge_type (d : Doc) (s : String) :
    (merge_type d s).description = d.description := by
  unfold merge_type; split <;> rfl

theorem description_merge_date (d : Doc) (s : String) :
    (merge_date d s).description = d.description := by
  unfold merge_date; split <;> rfl

theorem description_merge_language (d : Doc) (s : String) :
    (merge_language d s).description = d.description := by
  unfold merge_language; split <;> rfl

theorem description_merge_description_of_ne (d : Doc) (s : String)
    (hne : d.description ≠ "") : (merge_description d s).description = d.description := by
  unfold merge_description
  split
  · rename_i h; exact absurd h.2 hne
  · rfl

/-- First writer wins for `description`. -/
theorem description_update_existing_of_ne (d : Doc)
    (url doc_type date language description : String) (hne : d.description ≠ "") :
    (update_existing d url doc_type date language description).description
      = d.description := by
  unfold update_existing
  rw [description_merge_description_of_ne _ _
      (by rw [description_merge_language, description_merge_date, description_merge_type,
        description_merge_url]; exact hne),
    description_merge_language, description_merge_date, description_merge_type,
    description_merge_url]

/-- C1: a merge via `add_or_update_document` never writes to the user-owned
fields `read`, `comments`, `quotes` of any document already in the catalog:
the document stored at every pre-existing position keeps them verbatim. -/
theorem c1_user_fields_never_touched (docs : List Doc)
    (title url doc_type date language description now : String) (i : Nat)
    (h : i < docs.length) :
    ((add_or_update_document docs title url doc_type date language description now)[i]?).map
        userFields
      = (docs[i]?).map userFields := by
  induction docs generalizing i with
  | nil => simp at h
  | cons d rest ih =>
    simp only [add_or_update_document]
    split
    · cases i with
      | zero => simp [userFields_update_existing]
      | succ j => simp
    · cases i with
      | zero => simp
      | succ j =>
        simp only [List.getElem?_cons_succ]
        exact ih j (by simpa using h)

theorem c1_user_fields_never_touched_witness :
    ((add_or_update_document [c1_doc] "Rerum Novarum" "U2" "Letter" "15 May 1891"
        "English" "desc" "d1")[0]?).map userFields
      = (([c1_doc])[0]?).map userFields :=
  c1_user_fields_never_touched [c1_doc] "Rerum Novarum" "U2" "Letter" "15 May 1891"
    "English" "desc" "d1" 0 (by decide)

/-- C2: once one of the scalar fields `type`, `date`, `description` of a
stored document is non-empty, any further `add_or_update_document` call
leaves that field unchanged, whatever (possibly different, non-empty) value
the candidate supplies. -/
theorem c2_first_writer_wins (docs : List Doc)
    (title url doc_type date language description now : String) (i : Nat) (d : Doc)
    (h : docs[i]? = some d) :
    (d.type ≠ "" →
      ((add_or_update_document docs title url doc_type date language description
          now)[i]?).map Doc.type = some d.type) ∧
    (d.date ≠ "" →
      ((add_or_update_document docs title url doc_type date language description
          now)[i]?).map Doc.date = some d.date) ∧
    (d.description ≠ "" →
      ((add_or_update_document docs title url doc_type date language description
          now)[i]?).map Doc.description = some d.description) := by
  induction docs generalizing i with
  | nil => simp at h
  | cons d0 rest ih =>
    simp only [add_or_update_document]
    split
    · cases i with
      | zero =>
        simp only [List.getElem?_cons_zero, Option.some.injEq] at h
        subst h
        refine ⟨fun hne => ?_, fun hne => ?_, fun hne => ?_⟩
        · simp [type_update_existing_of_ne _ _ _ _ _ _ hne]
        · simp [date_update_existing_of_ne _ _ _ _ _ _ hne]
        · simp [description_update_existing_of_ne _ _ _ _ _ _ hne]
      | succ j => simp only [List.getElem?_cons_succ] at h ⊢; simp [h]
    · cases i with
      | zero =>
        simp only [List.getElem?_cons_zero, Option.some.injEq] at h
        subst h
        simp
      | succ j =>
        simp only [List.getElem?_cons_succ] at h ⊢
        exact ih j h

/-- Concrete instance of C2: a document with `type = "Encyclical"` keeps it
when a later merge supplies `type = "Letter"`. -/
theorem c2_first_writer_wins_witness :
    ((add_or_update_document [c1_doc] "Rerum Novarum" "U1" "Letter" "" "" ""
        "d1")[0]?).map Doc.type = some "Encyclical" :=
  (c2_first_writer_wins [c1_doc] "Rerum Novarum" "U1" "Letter" "" "" "" "d1" 0 c1_doc
    (by decide)).1 (by decide)

theorem urlState_merge_type (d : Doc) (s : String) :
    urlState (merge_type d s) = urlState d := by
  unfold merge_type urlState; split <;> rfl

theorem urlState_merge_date (d : Doc) (s : String) :
    urlState (merge_date d s) = urlState d := by
  unfold merge_date urlState; split <;> rfl

theorem urlState_merge_language (d : Doc) (s : String) :
    urlState (merge_language d s) = urlState d := by
  unfold merge_language urlState; split <;> rfl

theorem urlState_merge_description (d : Doc) (s : String) :
    urlState (merge_description d s) = urlState d := by
  unfold merge_description urlState; split <;> rfl

theorem urlState_update_existing (d : Doc) (url doc_type date language description : String) :
    urlState (update_existing d url doc_type date language description)
      = urlState (merge_url d url) := by
  unfold update_existing
  rw [urlState_merge_description, urlState_merge_language, urlState_merge_date,
    urlState_merge_type]

theorem merge_url_of_not_mem (d : Doc) (url : String)
    (h : url ∉ d.urls.getD [d.url]) :
    merge_url d url
      = { d with urls := some (d.urls.getD [d.url] ++ [url]), url := url } := by
  unfold merge_url; rw [if_pos h]

/-- Membership in the catalog after an upsert: every title present afterwards
was present before or is the candidate's title. -/
theorem mem_titles_add_or_update (docs : List Doc)
    (title url doc_type date language description now : String) (x : String)
    (hx : x ∈ (add_or_update_document docs title url doc_type date language description
        now).map Doc.title) :
    x ∈ docs.map Doc.title ∨ x = title := by
  induction docs with
  | nil =>
    simp only [add_or_update_document, List.map_cons, List.map_nil] at hx
    right
    simpa [new_document] using hx
  | cons d0 rest ih =>
    simp only [add_or_update_document] at hx
    split at hx
    · simp only [List.map_cons, List.mem_cons, title_update_existing] at hx
      rcases hx with h | h
      · exact Or.inl (by simp [h])
      · exact Or.inl (by simp only [List.map_cons, List.mem_cons]; exact Or.inr h)
    · simp only [List.map_cons, List.mem_cons] at hx
      rcases hx with h | h
      · exact Or.inl (by simp [h])
      · rcases ih h with h' | h'
        · exact Or.inl (by simp only [List.map_cons, List.mem_cons]; exact Or.inr h')
        · exact Or.inr h'

/-- Distinctness of titles is preserved by a single upsert. -/
theorem nodup_titles_add_or_update (docs : List Doc)
    (title url doc_type date language description now : String)
    (h : (docs.map Doc.title).Nodup) :
    ((add_or_update_document docs title url doc_type date language description
        now).map Doc.title).Nodup := by
  induction docs with
  | nil => simp [add_or_update_document]
  | cons d0 rest ih =>
    simp only [List.map_cons, List.nodup_cons] at h
    simp only [add_or_update_document]
    split
    · simp only [List.map_cons, List.nodup_cons, title_update_existing]
      exact ⟨h.1, h.2⟩
    · rename_i hmatch
      simp only [List.map_cons, List.nodup_cons]
      refine ⟨fun hmem => ?_, ih h.2⟩
      rcases mem_titles_add_or_update rest title url doc_type date language description
          now d0.title hmem with h' | h'
      · exact h.1 h'
      · have : d0.title ≠ title := by
          intro he
          exact hmatch (by simp [doc_matches, he])
        exact this h'

theorem nodup_titles_run_calls (docs : List Doc) (calls : List (Record × String))
    (h : (docs.map Doc.title).Nodup) :
    ((run_calls docs calls).map Doc.title).Nodup := by
  induction calls generalizing docs with
  | nil => simpa [run_calls] using h
  | cons c rest ih =>
    show ((run_calls (upsert docs c.1 c.2) rest).map Doc.title).Nodup
    exact ih _ (nodup_titles_add_or_update _ _ _ _ _ _ _ _ h)

/-- C3 (amended): after any sequence of `add_or_update_document` calls from
an empty catalog, no two stored documents share a *title* (titles are fixed
at creation, and creation requires that neither the title nor the url
matched).  Uniqueness of the primary url, by contrast, is *not* an
invariant — see the counterexample. -/
theorem c3_titles_unique (calls : List (Record × String)) :
    ((run_calls [] calls).map Doc.title).Nodup :=
  nodup_titles_run_calls [] calls (by simp)

/-- C3 counterexample: merging `("T1","U2")` matches the first document by
title and promotes `"U2"` to its primary url, which the second document
already holds — afterwards two distinct stored documents share the primary
url `"U2"`, so the claimed title-or-url uniqueness fails. -/
theorem c3_counterexample :
    ¬ (((run_calls [] c3_calls).map Doc.title).Nodup ∧
       ((run_calls [] c3_calls).map Doc.url).Nodup) := by
  decide

/-- C4 (amended): when `add_or_update_document` matches an existing document
and the candidate url is not among its known urls, the url is appended to
the `urls` list and promoted to the primary url, the older urls staying in
the list.  The "older URLs remain resolvable" half of the claim fails:
`document_exists` compares only the primary url — see the counterexample. -/
theorem c4_url_promotion (docs : List Doc)
    (title url doc_type date language description now : String) (d : Doc)
    (hfound : document_exists docs title url = some d)
    (hnew : url ∉ d.urls.getD [d.url]) :
    ∃ d', d' ∈ add_or_update_document docs title url doc_type date language description
        now ∧
      d'.title = d.title ∧ d'.url = url ∧
      d'.urls = some (d.urls.getD [d.url] ++ [url]) := by
  induction docs with
  | nil => simp [document_exists] at hfound
  | cons d0 rest ih =>
    by_cases hm : doc_matches d0 title url
    · have hd : d0 = d := by
        have : document_exists (d0 :: rest) title url = some d0 := by
          simp [document_exists, List.find?_cons_of_pos, hm]
        rw [this] at hfound
        exact Option.some.injEq _ _ ▸ hfound
      subst hd
      refine ⟨update_existing d0 url doc_type date language description, ?_, ?_, ?_, ?_⟩
      · simp [add_or_update_document, hm]
      · exact title_update_existing _ _ _ _ _ _
      · have h1 := congrArg Prod.fst (urlState_update_existing d0 url doc_type date
          language description)
        rw [merge_url_of_not_mem d0 url hnew] at h1
        exact h1
      · have h2 := congrArg Prod.snd (urlState_update_existing d0 url doc_type date
          language description)
        rw [merge_url_of_not_mem d0 url hnew] at h2
        exact h2
    · have hrest : document_exists rest title url = some d := by
        simpa [document_exists, List.find?_cons_of_neg, hm] using hfound
      obtain ⟨d', hmem, h1, h2, h3⟩ := ih hrest
      refine ⟨d', ?_, h1, h2, h3⟩
      simp only [add_or_update_document]
      rw [if_neg hm]
      exact List.mem_cons_of_mem _ hmem

theorem c4_url_promotion_witness :
    ∃ d', d' ∈ add_or_update_document [c4_doc] "T1" "U2" "" "" "" "" "t2" ∧
      d'.title = c4_doc.title ∧ d'.url = "U2" ∧
      d'.urls = some (c4_doc.urls.getD [c4_doc.url] ++ ["U2"]) :=
  c4_url_promotion [c4_doc] "T1" "U2" "" "" "" "" "t2" c4_doc (by decide) (by decide)

/-- C4 counterexample: after the url `"U2"` is merged and promoted, the older
url `"U1"` is still recorded in the `urls` list of the single stored
document, yet `document_exists` with `"U1"` (and a title matching nothing)
returns `none` — the older URL is *not* resolvable. -/
theorem c4_counterexample :
    (∃ d ∈ run_calls [] c4_calls, (d.urls.getD []).contains "U1") ∧
    document_exists (run_calls [] c4_calls) "Unrelated Title" "U1" = none := by
  decide

theorem urls_inv_new_document (title url doc_type date language description now : String) :
    urls_inv (new_document title url doc_type date language description now) := by
  intro us h
  simp [new_document] at h

theorem urls_inv_of_urlState_eq {d1 d2 : Doc} (h : urlState d1 = urlState d2)
    (h2 : urls_inv d2) : urls_inv d1 := by
  intro us hus
  have hurl : d1.url = d2.url := congrArg Prod.fst h
  have hurls : d1.urls = d2.urls := congrArg Prod.snd h
  rw [hurl]
  exact h2 us (hurls ▸ hus)

theorem urls_inv_merge_url (d : Doc) (url : String) (h : urls_inv d) :
    urls_inv (merge_url d url) := by
  unfold merge_url
  split
  · intro us hus
    simp only [Option.some.injEq] at hus
    subst hus
    simp
  · exact h

theorem urls_inv_update_existing (d : Doc)
    (url doc_type date language description : String) (h : urls_inv d) :
    urls_inv (update_existing d url doc_type date language description) :=
  urls_inv_of_urlState_eq (urlState_update_existing d url doc_type date language description)
    (urls_inv_merge_url d url h)

theorem urls_inv_add_or_update (docs : List Doc)
    (title url doc_type date language description now : String)
    (h : ∀ d ∈ docs, urls_inv d) :
    ∀ d' ∈ add_or_update_document docs title url doc_type date language description now,
      urls_inv d' := by
  induction docs with
  | nil =>
    intro d' hd'
    simp only [add_or_update_document, List.mem_singleton] at hd'
    subst hd'
    exact urls_inv_new_document _ _ _ _ _ _ _
  | cons d0 rest ih =>
    intro d' hd'
    simp only [add_or_update_document] at hd'
    split at hd'
    · rcases List.mem_cons.mp hd' with h' | h'
      · subst h'
        exact urls_inv_update_existing _ _ _ _ _ _ (h d0 (List.mem_cons_self _ _))
      · exact h d' (List.mem_cons_of_mem _ h')
    · rcases List.mem_cons.mp hd' with h' | h'
      · subst h'
        exact h d' (List.mem_cons_self _ _)
      · exact ih (fun d hd => h d (List.mem_cons_of_mem _ hd)) d' h'

theorem urls_inv_run_calls (docs : List Doc) (calls : List (Record × String))
    (h : ∀ d ∈ docs, urls_inv d) :
    ∀ d ∈ run_calls docs calls, urls_inv d := by
  induction calls generalizing docs with
  | nil => simpa [run_calls] using h
  | cons c rest ih =>
    show ∀ d ∈ run_calls (upsert docs c.1 c.2) rest, urls_inv d
    exact ih _ (urls_inv_add_or_update _ _ _ _ _ _ _ _ h)

/-- C5 (amended): for every document produced by a sequence of
`add_or_update_document` calls from the empty catalog, *whenever* the
`urls` list exists it contains the current primary url.  The list does not
exist at creation time (the claim's "alternateUrls set exists" part fails —
see the counterexample): it is only materialised by the first merge that
brings a genuinely new url. -/
theorem c5_primary_url_member (calls : List (Record × String)) (d : Doc)
    (us : List String) (hd : d ∈ run_calls [] calls) (hus : d.urls = some us) :
    d.url ∈ us :=
  urls_inv_run_calls [] calls (by simp) d hd us hus

theorem c5_primary_url_member_witness : c5_merged_doc.url ∈ ["V1", "V2"] :=
  c5_primary_url_member c5_calls c5_merged_doc ["V1", "V2"] (by decide) (by decide)

/-- C5 counterexample: immediately after creation the stored document has no
`urls` list at all (`new_document` does not set the `"urls"` key), so
"alternateUrls exists and contains primaryUrl" fails. -/
theorem c5_counterexample :
    (run_calls [] c5_new_call).all alt_urls_ok = false := by
  decide

/-- C7: with `L` the length of the (stripped) first paragraph text, the
stored description is empty for `L ≤ 50`, the full text for `50 < L ≤ 200`,
and exactly the first 200 characters plus the `"..."` marker (203 characters
in all) for `L > 200`. -/
theorem c7_description_truncation (p : String) :
    ((py_strip p).length ≤ 50 → extract_description (some p) = "") ∧
    (50 < (py_strip p).length → (py_strip p).length ≤ 200 →
      extract_description (some p) = py_strip p) ∧
    (200 < (py_strip p).length →
      extract_description (some p) = py_take (py_strip p) 200 ++ "..." ∧
      (extract_description (some p)).length = 203) := by
  refine ⟨fun h1 => ?_, fun h1 h2 => ?_, fun h1 => ?_⟩
  · simp only [extract_description]
    rw [if_neg (by omega)]
  · simp only [extract_description]
    rw [if_pos h1, if_neg (by omega)]
  · constructor
    · simp only [extract_description]
      rw [if_pos (by omega), if_pos h1]
    · simp only [extract_description]
      rw [if_pos (by omega), if_pos h1, String.length_append]
      have htake : (py_take (py_strip p) 200).length = 200 := by
        show ((py_strip p).data.take 200).length = 200
        rw [List.length_take]
        have hl : (py_strip p).length = (py_strip p).data.length := rfl
        omega
      rw [htake]
      rfl

set_option maxRecDepth 10000 in
theorem c7_description_truncation_witness :
    extract_description (some c7_long_paragraph)
      = py_take (py_strip c7_long_paragraph) 200 ++ "..." ∧
    (extract_description (some c7_long_paragraph)).length = 203 :=
  (c7_description_truncation c7_long_paragraph).2.2 (by decide)

/-- C8: for a file that is absent or whose content is malformed (rejected by
the JSON decoder), `load_existing_data` raises nothing and returns the empty
default catalog, and a subsequent `save_data` on that default succeeds. -/
theorem c8_load_recovers (fs : FileState) (now : String)
    (h : fs = FileState.absent ∨ fs = FileState.invalidJson) :
    load_existing_data fs = .ok default_data ∧
    ∃ saved, save_data default_data now = Except.ok saved := by
  rcases h with h | h <;> subst h
  · exact ⟨rfl, _, rfl⟩
  · exact ⟨rfl, _, rfl⟩

theorem c8_load_recovers_witness :
    load_existing_data FileState.absent = .ok default_data ∧
    ∃ saved, save_data default_data "2025-01-01T00:00:00" = Except.ok saved :=
  c8_load_recovers FileState.absent "2025-01-01T00:00:00" (Or.inl rfl)

/-- Boundary of C8 (not itself claimed): a file whose content decodes to a
non-dict JSON value (e.g. a list) is outside the handled "malformed" cases —
the `data.get` call on it raises `AttributeError`, which propagates. -/
theorem load_raises_on_non_dict :
    load_existing_data (FileState.validJson (.arr [])) = .error .attributeError := rfl

theorem fresh_for_new_document (r : Record) (now : String) :
    fresh_for r
      (new_document r.title r.url r.type r.date r.language r.description now) :=
  ⟨rfl, rfl, rfl, rfl, rfl, rfl, rfl, rfl⟩

theorem merge_url_fresh (r : Record) (d : Doc) (hus : d.urls = none)
    (hu : d.url = r.url) : merge_url d r.url = d := by
  unfold merge_url
  rw [if_neg (by simp [hus, hu])]

theorem merge_type_fresh (r : Record) (d : Doc) (hty : d.type = r.type) :
    merge_type d r.type = d := by
  unfold merge_type
  rw [if_neg]
  rintro ⟨h1, h2⟩
  exact h1 (hty.symm.trans h2)

theorem merge_date_fresh (r : Record) (d : Doc) (hda : d.date = r.date) :
    merge_date d r.date = d := by
  unfold merge_date
  rw [if_neg]
  rintro ⟨h1, h2⟩
  exact h1 (hda.symm.trans h2)

theorem merge_description_fresh (r : Record) (d : Doc)
    (hde : d.description = r.description) : merge_description d r.description = d := by
  unfold merge_description
  rw [if_neg]
  rintro ⟨h1, h2⟩
  exact h1 (hde.symm.trans h2)

theorem merge_language_fresh (r : Record) (d : Doc)
    (hls : d.languages = if r.language ≠ "" then [r.language] else []) :
    merge_language d r.language = d := by
  unfold merge_language
  rw [if_neg]
  rintro ⟨h1, h2⟩
  apply h2
  rw [hls, if_pos h1]
  exact List.mem_singleton.mpr rfl

/-- Merging the very record a document was created from changes nothing. -/
theorem update_existing_fresh_noop (r : Record) (d : Doc) (h : fresh_for r d) :
    update_existing d r.url r.type r.date r.language r.description = d := by
  obtain ⟨ht, hu, hus, hty, hda, hla, hls, hde⟩ := h
  unfold update_existing
  rw [merge_url_fresh r d hus hu, merge_type_fresh r d hty, merge_date_fresh r d hda,
    merge_language_fresh r d hls, merge_description_fresh r d hde]

theorem doc_matches_false_of_ne (d : Doc) (title url : String)
    (h1 : d.title ≠ title) (h2 : d.url ≠ url) :
    doc_matches d title url = false := by
  simp [doc_matches, h1, h2]

/-- When nothing matches, `add_or_update_document` appends the new
document. -/
theorem add_or_update_document_of_no_match (docs : List Doc)
    (title url doc_type date language description now : String)
    (h : ∀ d ∈ docs, doc_matches d title url = false) :
    add_or_update_document docs title url doc_type date language description now
      = docs ++ [new_document title url doc_type date language description now] := by
  induction docs with
  | nil => rfl
  | cons d0 rest ih =>
    simp only [add_or_update_document]
    rw [if_neg (by simp [h d0 (List.mem_cons_self _ _)])]
    rw [ih (fun d hd => h d (List.mem_cons_of_mem _ hd))]
    rfl

/-- A record whose title and url are new matches no fresh document. -/
theorem no_match_of_fresh (rs : List Record) (docs : List Doc) (r : Record)
    (hf : List.Forall₂ fresh_for rs docs)
    (ht : r.title ∉ rs.map Record.title) (hu : r.url ∉ rs.map Record.url) :
    ∀ d ∈ docs, doc_matches d r.title r.url = false := by
  induction hf with
  | nil => intro d hd; simp at hd
  | @cons a b l1 l2 h0 hrest ih =>
    intro d hd
    rcases List.mem_cons.mp hd with rfl | hd'
    · refine doc_matches_false_of_ne _ _ _ ?_ ?_
      · rw [h0.1]
        intro he
        exact ht (by simp only [List.map_cons, List.mem_cons]; exact Or.inl he.symm)
      · rw [h0.2.1]
        intro he
        exact hu (by simp only [List.map_cons, List.mem_cons]; exact Or.inl he.symm)
    · refine ih ?_ ?_ d hd'
      · intro hc
        exact ht (by simp only [List.map_cons, List.mem_cons]; exact Or.inr hc)
      · intro hc
        exact hu (by simp only [List.map_cons, List.mem_cons]; exact Or.inr hc)

/-- Upserting a record already represented by a fresh document (distinct
titles, distinct urls) is a no-op. -/
theorem upsert_noop_of_fresh (rs : List Record) (docs : List Doc) (r : Record)
    (now : String) (hf : List.Forall₂ fresh_for rs docs) (hr : r ∈ rs)
    (ht : (rs.map Record.title).Nodup) (hu : (rs.map Record.url).Nodup) :
    upsert docs r now = docs := by
  induction hf with
  | nil => simp at hr
  | @cons a b l1 l2 h0 hrest ih =>
    rcases List.mem_cons.mp hr with rfl | hr'
    · simp only [upsert, add_or_update_document]
      rw [if_pos (by simp [doc_matches, h0.1])]
      rw [update_existing_fresh_noop r b h0]
    · simp only [List.map_cons, List.nodup_cons] at ht hu
      have hrt : r.title ∈ l1.map Record.title := List.mem_map_of_mem Record.title hr'
      have hru : r.url ∈ l1.map Record.url := List.mem_map_of_mem Record.url hr'
      have hne_t : b.title ≠ r.title := by
        rw [h0.1]
        intro he
        rw [he] at ht
        exact ht.1 hrt
      have hne_u : b.url ≠ r.url := by
        rw [h0.2.1]
        intro he
        rw [he] at hu
        exact hu.1 hru
      simp only [upsert, add_or_update_document]
      rw [if_neg (by simp [doc_matches, hne_t, hne_u])]
      have := ih hr' ht.2 hu.2
      simp only [upsert] at this
      rw [this]

/-- Along a run that only ever meets fresh records with pairwise-distinct
titles and urls, the catalog stays the pointwise-fresh image of the records
processed so far. -/
theorem scrape_loop_intended_fresh (clock : Nat → String)
    (fetched : List (Option Record)) (rs0 : List Record) (docs0 : List Doc)
    (p s : Nat) (hf : List.Forall₂ fresh_for rs0 docs0)
    (ht : ((rs0 ++ fetched.filterMap id).map Record.title).Nodup)
    (hu : ((rs0 ++ fetched.filterMap id).map Record.url).Nodup) :
    List.Forall₂ fresh_for (rs0 ++ fetched.filterMap id)
      (scrape_loop_intended clock fetched (docs0, p, s)).1 := by
  induction fetched generalizing rs0 docs0 p s with
  | nil => simpa using hf
  | cons o rest ih =>
    cases o with
    | none =>
      simp only [List.filterMap_cons, id] at ht hu ⊢
      exact ih rs0 docs0 _ _ hf ht hu
    | some r =>
      simp only [List.filterMap_cons, id] at ht hu ⊢
      have hmem_t : r.title ∉ rs0.map Record.title := by
        intro hc
        rw [List.map_append, List.nodup_append] at ht
        exact ht.2.2 hc (by simp)
      have hmem_u : r.url ∉ rs0.map Record.url := by
        intro hc
        rw [List.map_append, List.nodup_append] at hu
        exact hu.2.2 hc (by simp)
      have hnm := no_match_of_fresh rs0 docs0 r hf hmem_t hmem_u
      have hupsert : upsert docs0 r (clock p)
          = docs0 ++ [new_document r.title r.url r.type r.date r.language
              r.description (clock p)] :=
        add_or_update_document_of_no_match docs0 _ _ _ _ _ _ _ hnm
      have hf' : List.Forall₂ fresh_for (rs0 ++ [r])
          (docs0 ++ [new_document r.title r.url r.type r.date r.language
            r.description (clock p)]) :=
        List.rel_append hf
          (List.Forall₂.cons (fresh_for_new_document r (clock p)) List.Forall₂.nil)
      have hstep := ih (rs0 ++ [r]) _ (step_counters p s).1 (step_counters p s).2 hf'
        (by simpa [List.append_assoc] using ht)
        (by simpa [List.append_assoc] using hu)
      simp only [scrape_loop_intended, hupsert]
      simpa [List.append_assoc] using hstep

/-- A loop all of whose upserts are no-ops leaves the catalog unchanged. -/
theorem scrape_loop_intended_noop (clock : Nat → String)
    (fetched : List (Option Record)) (docs : List Doc) (p s : Nat)
    (h : ∀ r ∈ fetched.filterMap id, ∀ now, upsert docs r now = docs) :
    (scrape_loop_intended clock fetched (docs, p, s)).1 = docs := by
  induction fetched generalizing p s with
  | nil => rfl
  | cons o rest ih =>
    cases o with
    | none =>
      exact ih _ _ (by simpa using h)
    | some r =>
      have hr : upsert docs r (clock p) = docs := h r (by simp) (clock p)
      simp only [scrape_loop_intended, hr]
      refine ih _ _ ?_
      intro r' hr' now
      refine h r' ?_ now
      simp only [List.filterMap_cons, id, List.mem_cons]
      exact Or.inr hr'

theorem scrape_all_documents_intended_documents (c : Catalog)
    (fetched : List (Option Record)) (clock : Nat → String) (t : String) :
    (scrape_all_documents_intended c fetched clock t).1.documents
      = (scrape_loop_intended clock fetched (c.documents, 0, 0)).1 := rfl

theorem scrape_all_documents_intended_metadata (c : Catalog)
    (fetched : List (Option Record)) (clock : Nat → String) (t : String) :
    (scrape_all_documents_intended c fetched clock t).1.metadata
      = { last_updated := some t, pope := c.metadata.pope, source := c.metadata.source,
          total_documents := (scrape_loop_intended clock fetched
            (c.documents, 0, 0)).1.length } := rfl

/-- C6 (amended, and stated for the intended keyword binding — the pipeline
as written aborts instead, see C9): when the extracted records carry
pairwise-distinct titles and pairwise-distinct urls, a second pipeline run
over the same records reproduces the catalog of the first run — same
documents, same document count, same fixed metadata — except that
`last_updated` moves to the second run's final save time. -/
theorem c6_second_run_identical_for_distinct_records
    (fetched : List (Option Record)) (clock1 clock2 : Nat → String) (t1 t2 : String)
    (ht : ((fetched.filterMap id).map Record.title).Nodup)
    (hu : ((fetched.filterMap id).map Record.url).Nodup) :
    (scrape_all_documents_intended
        (scrape_all_documents_intended default_catalog fetched clock1 t1).1
        fetched clock2 t2).1.documents
      = (scrape_all_documents_intended default_catalog fetched clock1 t1).1.documents ∧
    (scrape_all_documents_intended
        (scrape_all_documents_intended default_catalog fetched clock1 t1).1
        fetched clock2 t2).1.metadata.total_documents
      = (scrape_all_documents_intended default_catalog fetched clock1
          t1).1.metadata.total_documents ∧
    (scrape_all_documents_intended
        (scrape_all_documents_intended default_catalog fetched clock1 t1).1
        fetched clock2 t2).1.metadata.pope
      = (scrape_all_documents_intended default_catalog fetched clock1
          t1).1.metadata.pope ∧
    (scrape_all_documents_intended
        (scrape_all_documents_intended default_catalog fetched clock1 t1).1
        fetched clock2 t2).1.metadata.source
      = (scrape_all_documents_intended default_catalog fetched clock1
          t1).1.metadata.source ∧
    (scrape_all_documents_intended
        (scrape_all_documents_intended default_catalog fetched clock1 t1).1
        fetched clock2 t2).1.metadata.last_updated = some t2 := by
  have hfresh : List.Forall₂ fresh_for (fetched.filterMap id)
      (scrape_loop_intended clock1 fetched (([] : List Doc), 0, 0)).1 := by
    have := scrape_loop_intended_fresh clock1 fetched [] [] 0 0 List.Forall₂.nil
      (by simpa using ht) (by simpa using hu)
    simpa using this
  have hdocs_eq : (scrape_loop_intended clock2 fetched
      ((scrape_loop_intended clock1 fetched (([] : List Doc), 0, 0)).1, 0, 0)).1
      = (scrape_loop_intended clock1 fetched (([] : List Doc), 0, 0)).1 :=
    scrape_loop_intended_noop clock2 fetched _ 0 0
      (fun r hr now => upsert_noop_of_fresh (fetched.filterMap id) _ r now hfresh hr ht hu)
  exact ⟨hdocs_eq, congrArg List.length hdocs_eq, rfl, rfl, rfl⟩

theorem c6_second_run_identical_witness :
    (scrape_all_documents_intended
        (scrape_all_documents_intended default_catalog c6_ok_fetched
          (fun _ => "c1") "t1").1
        c6_ok_fetched (fun _ => "c2") "t2").1.documents
      = (scrape_all_documents_intended default_catalog c6_ok_fetched
          (fun _ => "c1") "t1").1.documents :=
  (c6_second_run_identical_for_distinct_records c6_ok_fetched (fun _ => "c1")
    (fun _ => "c2") "t1" "t2" (by decide) (by decide)).1

/-- C6 counterexample.  First conjunct: the pipeline as written does not even
complete a run over these records (the keyword `TypeError` of C9), so no
catalog is produced.  Second conjunct: even with the keyword binding
corrected, a second run over the same records changes a document — the
record `("T2","U2","Letter")` re-created document 2 on the first run, but on
the second run it matches document 1 (whose primary url was promoted to
`"U2"`) and writes `type := "Letter"` into it — so the claimed idempotence
fails. -/
theorem c6_counterexample :
    scrape_all_documents default_catalog c6_alias_fetched (fun _ => "now") "t1"
      = .error .typeError ∧
    (scrape_all_documents_intended
        (scrape_all_documents_intended default_catalog c6_alias_fetched
          (fun _ => "now") "t1").1
        c6_alias_fetched (fun _ => "now") "t2").1.documents
      ≠ (scrape_all_documents_intended default_catalog c6_alias_fetched
          (fun _ => "now") "t1").1.documents :=
  ⟨rfl, by decide⟩

theorem ws_mem_collapse (l : List Char) (c : Char) (hc : c ∈ collapse l)
    (hw : c.isWhitespace) : c = ' ' := by
  induction l with
  | nil => simp [collapse] at hc
  | cons a rest ih =>
    simp only [collapse] at hc
    by_cases ha : a.isWhitespace
    · rw [if_pos ha] at hc
      by_cases hh : (collapse rest).head? = some ' '
      · rw [if_pos hh] at hc
        exact ih hc
      · rw [if_neg hh] at hc
        rcases List.mem_cons.mp hc with rfl | hc'
        · rfl
        · exact ih hc'
    · rw [if_neg ha] at hc
      rcases List.mem_cons.mp hc with rfl | hc'
      · exact absurd hw ha
      · exact ih hc'

/-- The collapsed text has no two adjacent whitespace characters. -/
theorem chain'_collapse (l : List Char) : List.Chain' no_ws_pair (collapse l) := by
  induction l with
  | nil => simp [collapse]
  | cons a rest ih =>
    simp only [collapse]
    by_cases ha : a.isWhitespace
    · rw [if_pos ha]
      by_cases hh : (collapse rest).head? = some ' '
      · rw [if_pos hh]
        exact ih
      · rw [if_neg hh]
        rw [List.chain'_cons']
        refine ⟨?_, ih⟩
        intro b hb hpair
        have hbe : (collapse rest).head? = some b := hb
        have hb' : b ∈ collapse rest := List.mem_of_mem_head? hb
        have hbsp : b = ' ' := ws_mem_collapse rest b hb' hpair.2
        exact hh (by rw [hbe, hbsp])
    · rw [if_neg ha]
      rw [List.chain'_cons']
      refine ⟨?_, ih⟩
      intro b hb hpair
      exact ha hpair.1

theorem chain'_stripChars {l : List Char} (h : List.Chain' no_ws_pair l) :
    List.Chain' no_ws_pair (stripChars l) := by
  unfold stripChars
  have h1 : List.Chain' no_ws_pair (l.dropWhile Char.isWhitespace) :=
    h.suffix (List.dropWhile_suffix Char.isWhitespace)
  have h2 : List.Chain' no_ws_pair (l.dropWhile Char.isWhitespace).reverse := by
    rw [List.chain'_reverse]
    exact h1.imp (fun a b hab hc => hab ⟨hc.2, hc.1⟩)
  have h3 : List.Chain' no_ws_pair
      ((l.dropWhile Char.isWhitespace).reverse.dropWhile Char.isWhitespace) :=
    h2.suffix (List.dropWhile_suffix Char.isWhitespace)
  rw [List.chain'_reverse]
  exact h3.imp (fun a b hab hc => hab ⟨hc.2, hc.1⟩)

theorem mem_collapse_of_not_ws {l : List Char} {c : Char} (hc : c ∈ l)
    (hnw : ¬c.isWhitespace) : c ∈ collapse l := by
  induction l with
  | nil => simp at hc
  | cons a rest ih =>
    simp only [collapse]
    rcases List.mem_cons.mp hc with rfl | hc'
    · rw [if_neg hnw]
      exact List.mem_cons_self _ _
    · by_cases ha : a.isWhitespace
      · rw [if_pos ha]
        by_cases hh : (collapse rest).head? = some ' '
        · rw [if_pos hh]
          exact ih hc'
        · rw [if_neg hh]
          exact List.mem_cons_of_mem _ (ih hc')
      · rw [if_neg ha]
        exact List.mem_cons_of_mem _ (ih hc')

theorem stripChars_ne_nil {l : List Char} {c : Char} (hc : c ∈ l)
    (hnw : ¬c.isWhitespace) : stripChars l ≠ [] := by
  intro hcontra
  unfold stripChars at hcontra
  rw [List.reverse_eq_nil_iff, List.dropWhile_eq_nil_iff] at hcontra
  have h1 : ∀ x ∈ l.dropWhile Char.isWhitespace, x.isWhitespace := by
    intro x hx
    exact hcontra x (List.mem_reverse.mpr hx)
  have h2 : c ∈ l.takeWhile Char.isWhitespace ++ l.dropWhile Char.isWhitespace := by
    rw [List.takeWhile_append_dropWhile]
    exact hc
  rcases List.mem_append.mp h2 with h | h
  · exact hnw (List.mem_takeWhile_imp h)
  · exact hnw (h1 c h)

theorem py_strip_mk_ne_empty {l : List Char} {c : Char} (hc : c ∈ l)
    (hnw : ¬c.isWhitespace) : py_strip (String.mk l) ≠ "" := by
  intro heq
  have h2 : stripChars l = [] := by
    have h3 := congrArg String.data heq
    simpa [py_strip] using h3
  exact stripChars_ne_nil hc hnw h2

/-- C10 (amended): every extracted title is whitespace-normalised (no run of
two adjacent whitespace characters anywhere in it); when every selector
yields empty text the title is the collapsed-and-stripped URL fallback; and
that fallback title is non-empty whenever the derived string retains any
non-whitespace character.  The unconditional non-emptiness of the original
claim fails — see the counterexample. -/
theorem c10_extracted_title (sel : List (Option String)) (url : String) :
    List.Chain' no_ws_pair (extract_title sel url).data ∧
    (pick_title sel = "" →
      extract_title sel url
        = py_strip (String.mk (collapse (fallback_title url).data))) ∧
    (pick_title sel = "" →
      (∃ c ∈ (fallback_title url).data, ¬c.isWhitespace) →
      extract_title sel url ≠ "") := by
  refine ⟨?_, fun h => ?_, fun h hex => ?_⟩
  · show List.Chain' no_ws_pair (stripChars (collapse _))
    exact chain'_stripChars (chain'_collapse _)
  · simp only [extract_title]
    rw [if_pos h]
  · obtain ⟨c, hcmem, hnw⟩ := hex
    simp only [extract_title]
    rw [if_pos h]
    exact py_strip_mk_ne_empty (mem_collapse_of_not_ws hcmem hnw) hnw

set_option maxRecDepth 10000 in
set_option maxHeartbeats 1000000 in
theorem c10_extracted_title_witness : extract_title [none] c10_good_url ≠ "" :=
  (c10_extracted_title [none] c10_good_url).2.2 rfl (by decide)

/-- C10 counterexample: this URL passes the link filter of
`find_pope_leo_pages`, yet when every structural selector yields empty text
the fallback title is empty — the final path segment is `".html"`, removing
`".html"` leaves nothing — so the record title is empty, refuting the
claimed non-emptiness. -/
theorem c10_counterexample :
    link_filter c10_bad_url
        "https://www.vatican.va/content/leo-xiii/en/encyclicals.index.html" = true ∧
    extract_title c10_all_selectors_empty c10_bad_url = "" := by
  exact ⟨by decide, by decide⟩

/-- C9, evaluated on the code as written.  First conjunct: on a run of 25
candidates in which every extraction fails, the persist schedule is as
claimed — 2 mid-run saves plus 1 final save.  Second conjunct (the bug): as
soon as one extraction succeeds, `add_or_update_document(**doc_info)`
raises `TypeError` (`doc_info` binds the keyword `"type"`, the parameter is
`doc_type`), aborting the run with *no* further and no final persist. -/
theorem c9_persist_schedule_vs_code :
    (∃ c, scrape_all_documents default_catalog
        (List.replicate 25 (none : Option Record)) (fun _ => "now") "tEnd"
        = .ok (c, 2, 3)) ∧
    scrape_all_documents default_catalog
        (some c9_record :: List.replicate 24 (none : Option Record))
        (fun _ => "now") "tEnd"
      = .error .typeError :=
  ⟨⟨_, rfl⟩, rfl⟩
